import Mathlib

/-!
Shallow embedding of the historical-odds collection engine of
`ai-sports-model-builder`, covering:

* `src/src/data_collection/historical_odds_collector.py`
  (`HistoricalOddsCollector`: `_save_to_db`, `_get_next_day_timestamp`,
  `_handle_rate_limit`, `_should_skip_date`, `_process_date`,
  `collect_historical_odds`),
* `src/src/data_collection/odds_api_client.py`
  (`store_odds_snapshot`'s game-id derivation, `collect_historical_odds`),
* `src/src/data_collection/clients/odds_api_client.py` (`_make_request`
  with its `tenacity` retry decorator),
* `src/src/services/data/historical_data_service.py`
  (`create_odds_snapshot`, `store_odds`),
* `src/scripts/collect_historical_odds.py` (`collect_historical_odds`).

Conventions of the embedding:

* ISO-8601 UTC timestamp strings (always in the canonical
  `YYYY-MM-DDTHH:MM:SSZ` shape in this code base) are represented by the
  structure `UtcTime` = calendar date + second of day; Python's
  `datetime.fromisoformat` round-trip (`_normalize_timestamp`) is the
  identity of this representation, and equality of the canonical strings
  coincides with equality of `UtcTime` values.
* Python `float` odds prices and points are represented by `Rat`; the
  source never does arithmetic on them, it only moves them around.
* The SQLAlchemy session is represented by committed rows plus pending
  (uncommitted) rows; queries see committed and pending rows (autoflush),
  `commit` moves pending rows to committed, `rollback` discards pending
  rows.  Database failures (`SQLAlchemyError`) are injected by an oracle
  at commit points.
* Network responses are injected by oracles (a function or a list of
  prepared responses), since the HTTP client is an external collaborator.
-/

/-- Calendar date, the value of Python `datetime.date()` for a parsed
timestamp. -/
structure CalDate where
  year : Nat
  month : Nat
  day : Nat
deriving DecidableEq, Repr

/-- Lexicographic strict order on calendar dates, the value of Python
`d1 < d2` on `datetime.date` objects. -/
def CalDate.ltB (a b : CalDate) : Bool :=
  a.year < b.year ∨
    (a.year = b.year ∧
      (a.month < b.month ∨ (a.month = b.month ∧ a.day < b.day)))

/-- A UTC instant: calendar date plus second of day.  This is the
embedding of a canonical ISO-8601 `...Z` timestamp string after
`_normalize_timestamp`; two canonical strings are equal iff their
`UtcTime` values are equal. -/
structure UtcTime where
  date : CalDate
  sec : Nat
deriving DecidableEq, Repr

/-- Zero-padded two-digit rendering of a number, as in `strftime` fields
`%m` and `%d`. -/
def pad2 (n : Nat) : String :=
  if n < 10 then "0" ++ toString n else toString n

/-- Zero-padded four-digit rendering of a number, as in `strftime` field
`%Y`. -/
def pad4 (n : Nat) : String :=
  if n < 10 then "000" ++ toString n
  else if n < 100 then "00" ++ toString n
  else if n < 1000 then "0" ++ toString n
  else toString n

/-- Rendering of `game_date.strftime("%Y-%m-%d")`. -/
def CalDate.fmt (d : CalDate) : String :=
  pad4 d.year ++ "-" ++ pad2 d.month ++ "-" ++ pad2 d.day

/-- ASCII model of CPython `str.upper` on one character (the source's
team names are ASCII): a lowercase letter moves down by 32 code points,
everything else is unchanged. -/
def upper_ascii (c : Char) : Char :=
  if 97 ≤ c.toNat ∧ c.toNat ≤ 122 then Char.ofNat (c.toNat - 32) else c

/-- ASCII model of CPython `str.isalpha` on one character. -/
def is_alpha_ascii (c : Char) : Bool :=
  decide ((65 ≤ c.toNat ∧ c.toNat ≤ 90) ∨ (97 ≤ c.toNat ∧ c.toNat ≤ 122))

/-- Upper-case ASCII letter test. -/
def is_upper_ascii (c : Char) : Bool :=
  decide (65 ≤ c.toNat ∧ c.toNat ≤ 90)

/-- Team-name normalization of `store_odds_snapshot`
(`src/src/data_collection/odds_api_client.py` lines 93-98):
`"".join(c for c in name.upper() if c.isalpha())[:3]`. -/
def team_abbr (name : String) : String :=
  String.mk (((name.data.map upper_ascii).filter is_alpha_ascii).take 3)

/-- One market outcome of the provider payload.  `price` is always
present in provider data; `point` is present for spread and total
outcomes. -/
structure OutcomeData where
  name : String
  price : Rat
  point : Option Rat
deriving DecidableEq, Repr

/-- One market of one bookmaker in the provider payload. -/
structure MarketData where
  key : String
  outcomes : List OutcomeData
deriving DecidableEq, Repr

/-- One bookmaker entry of one game in the provider payload. -/
structure BookmakerData where
  key : String
  title : String
  last_update : UtcTime
  markets : List MarketData
deriving DecidableEq, Repr

/-- One game record of a snapshot's `data` array. -/
structure GameData where
  id : String
  commence_time : UtcTime
  home_team : String
  away_team : String
  bookmakers : List BookmakerData
deriving DecidableEq, Repr

/-- One provider snapshot: the parsed JSON body
`\x7btimestamp, previous_timestamp, next_timestamp, data\x7d`. -/
structure Snapshot where
  timestamp : UtcTime
  previous_timestamp : Option UtcTime
  next_timestamp : Option UtcTime
  data : List GameData
deriving DecidableEq, Repr

/-- Internal game-id derivation of `store_odds_snapshot`
(`src/src/data_collection/odds_api_client.py` lines 89-101):
`f"NBA-\x7bgame_date.strftime('%Y-%m-%d')\x7d-\x7bhome_abbr\x7d-\x7baway_abbr\x7d"`
where `game_date` is the parsed `commence_time`. -/
def store_game_id (g : GameData) : String :=
  "NBA-" ++ g.commence_time.date.fmt ++ "-" ++
    team_abbr g.home_team ++ "-" ++ team_abbr g.away_team

/-- The provider's frequency-limit marker checked by
`_handle_rate_limit`. -/
def exceeded_marker : List Char := "EXCEEDED_FREQ_LIMIT".data

/-- Leading-match test: does `needle` occur at the head of `hay`? -/
def sub_at : List Char → List Char → Bool
  | [], _ => true
  | _ :: _, [] => false
  | a :: as, b :: bs => a = b && sub_at as bs

/-- Substring test on character lists, the model of Python
`needle in haystack`. -/
def has_sub (needle : List Char) : List Char → Bool
  | [] => sub_at needle []
  | c :: cs => sub_at needle (c :: cs) || has_sub needle cs

/-- Model of Python `"EXCEEDED_FREQ_LIMIT" in error`. -/
def error_has_marker (error : String) : Bool :=
  has_sub exceeded_marker error.data

/-- The `collection_stats` counter dictionary of
`HistoricalOddsCollector.__init__`. -/
structure CollectionStats where
  total_dates : Nat
  processed_dates : Nat
  total_snapshots : Nat
  total_games : Nat
  new_games : Nat
  duplicate_games : Nat
  errors : Nat
  next_day_timestamps : Nat
  rate_limit_retries : Nat
  skipped_dates : Nat
deriving DecidableEq, Repr

/-- All-zero initial stats. -/
def init_stats : CollectionStats :=
  ⟨0, 0, 0, 0, 0, 0, 0, 0, 0, 0⟩

/-- Backoff of `_handle_rate_limit`
(`src/src/data_collection/historical_odds_collector.py` lines 312-329):
the error is rate-limiting iff it contains the frequency-limit marker;
then the run-wide retry counter is incremented and the call sleeps
`min(1 * 2 ** retries, 30)` seconds (with the already-incremented
counter) before returning `True`.  Result: updated stats, and the sleep
delay in seconds when the marker was present (`None` models returning
`False` with no sleep and no counter change). -/
def handle_rate_limit (stats : CollectionStats) (error : String) :
    CollectionStats × Option Nat :=
  if error_has_marker error then
    let stats := { stats with rate_limit_retries := stats.rate_limit_retries + 1 }
    (stats, some (min (1 * 2 ^ stats.rate_limit_retries) 30))
  else
    (stats, none)

/-- Closed form of the sleep delay after the `k`-th rate-limit hit of a
run (counting from 1). -/
def nth_delay (k : Nat) : Nat :=
  min (2 ^ k) 30

/-- Market types of `src/src/models/domain/game.py` (`MarketType`):
`H2H = "h2h"`, `SPREAD = "spreads"`, `TOTAL = "totals"`. -/
inductive MarketKind
  | h2h
  | spread
  | total
deriving DecidableEq, Repr

/-- Model of `MarketType(market_data["key"])`: the enum constructor, or
`None` for the `ValueError` branch (unknown market type, skipped). -/
def market_kind_of (key : String) : Option MarketKind :=
  if key = "h2h" then some .h2h
  else if key = "spreads" then some .spread
  else if key = "totals" then some .total
  else none

/-- A committed or pending row of the `games` table
(`src/src/models/domain/game.py`, class `Game`).  The integer primary
key `Game.id` is represented by the unique provider id string
`Game.game_id`, which determines it one-to-one. -/
structure GameRow where
  game_id : String
  home_team_id : Nat
  away_team_id : Nat
  commence_time : UtcTime
deriving DecidableEq, Repr

/-- A row of the `game_odds` table (`src/src/models/domain/game.py`,
class `GameOdds`).  `game_ref` is the owning game, represented by its
provider id (see `GameRow`). -/
structure GameOddsRow where
  game_ref : String
  bookmaker_id : Nat
  market_type : MarketKind
  timestamp : UtcTime
  home_price : Option Rat
  away_price : Option Rat
  spread : Option Rat
  over_price : Option Rat
  under_price : Option Rat
  total : Option Rat
deriving DecidableEq, Repr

/-- The SQLAlchemy session of the collector: committed rows, pending
(added but uncommitted) rows, and a counter of commit attempts used to
index the failure oracle. -/
structure SessionState where
  games : List GameRow
  odds : List GameOddsRow
  pending_games : List GameRow
  pending_odds : List GameOddsRow
  commit_count : Nat
deriving DecidableEq, Repr

/-- Games visible to a session query (committed plus pending, since the
session autoflushes pending rows before a query). -/
def SessionState.visible_games (s : SessionState) : List GameRow :=
  s.games ++ s.pending_games

/-- Odds rows visible to a session query. -/
def SessionState.visible_odds (s : SessionState) : List GameOddsRow :=
  s.odds ++ s.pending_odds

/-- Commit: move pending rows into the committed store
(`self.session.commit()`).  The attempt itself is counted by the
caller. -/
def SessionState.commit (s : SessionState) : SessionState :=
  { games := s.games ++ s.pending_games
    odds := s.odds ++ s.pending_odds
    pending_games := []
    pending_odds := []
    commit_count := s.commit_count }

/-- Rollback: discard pending rows (`self.session.rollback()`). -/
def SessionState.rollback (s : SessionState) : SessionState :=
  { s with pending_games := [], pending_odds := [] }

/-- Read-only environment of `_save_to_db`: the teams and bookmakers
master tables (`_get_team_by_name`, `_get_bookmaker` resolve a name or
key to a row id, `None` when absent), and the oracle deciding whether
the n-th commit attempt of the session raises `SQLAlchemyError`. -/
structure SaveEnv where
  team_table : String → Option Nat
  bookmaker_table : String → Option Nat
  commit_fails : Nat → Bool

/-- Mutable state of one `HistoricalOddsCollector` instance.  `fetched`
and `emitted` are observation-only instrumentation recording, in order,
the timestamps for which the API client was actually called and the
snapshots handed to `_save_to_db`; they model no source variable and no
source branch reads them. -/
structure Collector where
  visited_timestamps : List UtcTime
  visited_game_ids : List String
  session : SessionState
  stats : CollectionStats
  fetched : List UtcTime
  emitted : List Snapshot

/-- A fresh collector (`HistoricalOddsCollector.__init__`) over an empty
store. -/
def init_collector : Collector :=
  ⟨[], [], ⟨[], [], [], [], 0⟩, init_stats, [], []⟩

/-- Moneyline extraction of `_save_to_db` (lines 181-200): scan the
outcomes, taking the price of the outcome named like the home team and
of the one named like the away team (a later match overwrites an
earlier one, as in the Python loop). -/
def h2h_prices (home away : String) (outs : List OutcomeData) :
    Option Rat × Option Rat :=
  outs.foldl
    (fun acc o =>
      if o.name = home then (some o.price, acc.2)
      else if o.name = away then (acc.1, some o.price)
      else acc)
    (none, none)

/-- Spread extraction of `_save_to_db` (lines 202-213): home price and
point from the home-named outcome, away price from the away-named
outcome.  A home-named outcome with no `point` key makes
`outcome["point"]` raise `KeyError` (the `.error` result), aborting the
whole extraction as in the source. -/
def spread_vals (home away : String) :
    List OutcomeData → Option Rat × Option Rat × Option Rat →
      Except Unit (Option Rat × Option Rat × Option Rat)
  | [], acc => .ok acc
  | o :: rest, acc =>
    if o.name = home then
      match o.point with
      | none => .error ()
      | some pt => spread_vals home away rest (some o.price, acc.2.1, some pt)
    else if o.name = away then
      spread_vals home away rest (acc.1, some o.price, acc.2.2)
    else spread_vals home away rest acc

/-- Total extraction of `_save_to_db` (lines 228-239): over price and
point from the outcome named `Over`, under price from the outcome named
`Under`.  An `Over` outcome with no `point` key makes
`outcome["point"]` raise `KeyError` (the `.error` result). -/
def total_vals :
    List OutcomeData → Option Rat × Option Rat × Option Rat →
      Except Unit (Option Rat × Option Rat × Option Rat)
  | [], acc => .ok acc
  | o :: rest, acc =>
    if o.name = "Over" then
      match o.point with
      | none => .error ()
      | some pt => total_vals rest (some o.price, acc.2.1, some pt)
    else if o.name = "Under" then
      total_vals rest (acc.1, some o.price, acc.2.2)
    else total_vals rest acc

/-- The odds row `_save_to_db` builds for one market of one bookmaker
(lines 179-252): `.ok none` when the completeness check of the branch
fails and nothing is added, `.error` when the extraction raised
`KeyError`. -/
def market_row (g : GameData) (bookmaker_id : Nat) (kind : MarketKind)
    (ts : UtcTime) (outs : List OutcomeData) :
    Except Unit (Option GameOddsRow) :=
  match kind with
  | .h2h =>
    let p := h2h_prices g.home_team g.away_team outs
    match p.1, p.2 with
    | some hp, some ap =>
      .ok (some ⟨g.id, bookmaker_id, .h2h, ts, some hp, some ap, none, none,
        none, none⟩)
    | _, _ => .ok none
  | .spread =>
    match spread_vals g.home_team g.away_team outs (none, none, none) with
    | .error _ => .error ()
    | .ok p =>
      match p.1, p.2.1, p.2.2 with
      | some hp, some ap, some sp =>
        .ok (some ⟨g.id, bookmaker_id, .spread, ts, some hp, some ap, some sp,
          none, none, none⟩)
      | _, _, _ => .ok none
  | .total =>
    match total_vals outs (none, none, none) with
    | .error _ => .error ()
    | .ok p =>
      match p.1, p.2.1, p.2.2 with
      | some op, some up, some tot =>
        .ok (some ⟨g.id, bookmaker_id, .total, ts, none, none, none, some op,
          some up, some tot⟩)
      | _, _, _ => .ok none

/-- The existing-odds pre-check of `_save_to_db` (lines 164-177): is
there a visible row with this game, bookmaker, market type and
timestamp? -/
def odds_exist (s : SessionState) (game_ref : String) (bookmaker_id : Nat)
    (kind : MarketKind) (ts : UtcTime) : Bool :=
  s.visible_odds.any fun r =>
    r.game_ref = game_ref && r.bookmaker_id = bookmaker_id &&
      r.market_type = kind && r.timestamp = ts

/-- Processing of one market of one bookmaker (lines 155-252): an
unknown market key is skipped, an existing (game, bookmaker, market,
timestamp) tuple is skipped, a complete row is added to the session's
pending rows.  A raising extraction (`KeyError` on a missing point)
propagates as `.error` carrying the session as it stands — the raising
market has added nothing, but rows of earlier markets stay pending. -/
def market_step (g : GameData) (bookmaker_id : Nat) (ts : UtcTime)
    (s : SessionState) (m : MarketData) : Except SessionState SessionState :=
  match market_kind_of m.key with
  | none => .ok s
  | some kind =>
    if odds_exist s g.id bookmaker_id kind ts then .ok s
    else
      match market_row g bookmaker_id kind ts m.outcomes with
      | .error _ => .error s
      | .ok none => .ok s
      | .ok (some row) => .ok { s with pending_odds := s.pending_odds ++ [row] }

/-- Processing of the markets of one bookmaker entry (lines 155-252); a
raising market aborts the loop, carrying the session with all rows
added so far still pending. -/
def add_bookmaker_rows (g : GameData) (bookmaker_id : Nat) (ts : UtcTime) :
    List MarketData → SessionState → Except SessionState SessionState
  | [], s => .ok s
  | m :: rest, s =>
    match market_step g bookmaker_id ts s m with
    | .error e => .error e
    | .ok s => add_bookmaker_rows g bookmaker_id ts rest s

/-- Processing of one bookmaker entry (lines 148-153): an unknown
bookmaker is skipped with a warning. -/
def bookmaker_step (env : SaveEnv) (g : GameData) (ts : UtcTime)
    (s : SessionState) (bm : BookmakerData) : Except SessionState SessionState :=
  match env.bookmaker_table bm.key with
  | none => .ok s
  | some bid => add_bookmaker_rows g bid ts bm.markets s

/-- Processing of the bookmaker entries of one game (lines 148-252); a
raising bookmaker aborts the loop. -/
def add_game_rows (env : SaveEnv) (g : GameData) (ts : UtcTime) :
    List BookmakerData → SessionState → Except SessionState SessionState
  | [], s => .ok s
  | bm :: rest, s =>
    match bookmaker_step env g ts s bm with
    | .error e => .error e
    | .ok s => add_game_rows env g ts rest s

/-- The session value a row-building step ends in, whether it returned
or raised (the raise carries the session at the point of the
`KeyError`). -/
def except_state : Except SessionState SessionState → SessionState
  | .ok s => s
  | .error s => s

/-- The game-row insert of `_save_to_db` (lines 130-146): add a pending
`games` row unless one with this provider id is already visible. -/
def game_pending_session (g : GameData) (home_id away_id : Nat)
    (s : SessionState) : SessionState :=
  if s.visible_games.any (fun r => r.game_id = g.id) then s
  else
    { s with
        pending_games :=
          s.pending_games ++ [⟨g.id, home_id, away_id, g.commence_time⟩] }

/-- Per-game body of the `for game_data in snapshot...` loop of
`_save_to_db` (lines 109-254), ending with the per-game
`self.session.commit()`.  The boolean result is `true` when the body
raised: either `SQLAlchemyError` at the commit — then the session is
rolled back, the error counter is incremented and the exception
propagates (lines 256-260) — or `KeyError` from a missing outcome
point, which the `except SQLAlchemyError` handler does *not* catch: no
rollback happens, no error is counted here, and the half-built game's
pending rows stay in the session. -/
def save_game (env : SaveEnv) (ts : UtcTime) (g : GameData)
    (c : Collector) : Collector × Bool :=
  if g.id ∈ c.visited_game_ids then
    ({ c with stats := { c.stats with duplicate_games := c.stats.duplicate_games + 1 } },
      false)
  else
    let c := { c with visited_game_ids := g.id :: c.visited_game_ids }
    match env.team_table g.home_team, env.team_table g.away_team with
    | some home_id, some away_id =>
      let s := game_pending_session g home_id away_id c.session
      let c :=
        { c with
            session := s
            stats :=
              if c.session.visible_games.any (fun r => r.game_id = g.id) then
                c.stats
              else
                { c.stats with new_games := c.stats.new_games + 1 } }
      match add_game_rows env g ts g.bookmakers s with
      | .error e => ({ c with session := e }, true)
      | .ok s =>
        if env.commit_fails s.commit_count then
          ({ c with
              session := { s.rollback with commit_count := s.commit_count + 1 }
              stats := { c.stats with errors := c.stats.errors + 1 } },
            true)
        else
          ({ c with
              session := { s.commit with commit_count := s.commit_count + 1 } },
            false)
    | _, _ => (c, false)

/-- The game loop of `_save_to_db`: games are processed in order; a
`SQLAlchemyError` on one game's commit stops the loop and propagates
(the `try` block wraps the whole loop). -/
def save_loop (env : SaveEnv) (ts : UtcTime) :
    List GameData → Collector → Collector × Bool
  | [], c => (c, false)
  | g :: rest, c =>
    match save_game env ts g c with
    | (c, true) => (c, true)
    | (c, false) => save_loop env ts rest c

/-- Model of `_save_to_db(snapshot)`
(`src/src/data_collection/historical_odds_collector.py` lines 100-260).
The boolean result is `true` when the call raised. -/
def save_to_db (env : SaveEnv) (snap : Snapshot) (c : Collector) :
    Collector × Bool :=
  save_loop env snap.timestamp snap.data c

/-- Next-day pointer extraction of `_get_next_day_timestamp`
(`src/src/data_collection/historical_odds_collector.py` lines 282-310):
the snapshot's `next_timestamp`, but only when its calendar date is
strictly later than the snapshot's own calendar date
(`next_dt.date() > current_dt.date()`); otherwise `None`.  The guard
for a missing snapshot object and the timestamp-parse `except` branch
cannot fire in the model (a `Snapshot` value always exists and parses). -/
def get_next_day_timestamp (s : Snapshot) : Option UtcTime :=
  match s.next_timestamp with
  | none => none
  | some nts =>
    if CalDate.ltB s.timestamp.date nts.date then some nts else none

/-- Skip rule of `_should_skip_date` (lines 331-349): skip a timestamp
when some already-visited timestamp falls on the same calendar date. -/
def should_skip_date (visited : List UtcTime) (ts : UtcTime) : Bool :=
  visited.any fun t => t.date = ts.date

/-- The hard-coded next-day chain depth bound of `_process_date`
(line 374: `if depth > 5`). -/
def max_next_day_depth : Nat := 5

/-- The save step of `_process_date`'s snapshot loop (lines 394-401):
a snapshot carrying data is counted, emitted and handed to
`_save_to_db`; a raising save is counted as an error and the walk goes
on. -/
def snap_save_step (env : SaveEnv) (s : Snapshot) (c : Collector) :
    Collector :=
  if s.data = [] then c
  else
    let c :=
      { c with
          stats :=
            { c.stats with
                total_snapshots := c.stats.total_snapshots + 1
                total_games := c.stats.total_games + s.data.length }
          emitted := c.emitted ++ [s] }
    match save_to_db env s c with
    | (c, true) =>
      { c with stats := { c.stats with errors := c.stats.errors + 1 } }
    | (c, false) => c

/-- Outcome of one `get_historical_odds_async` call as seen by the
deterministic chain model: a snapshot list, or an error whose text does
not contain the frequency-limit marker (so `_handle_rate_limit` returns
`False` and the node is abandoned with `errors += 1`).  An error with
the marker makes `_process_date` re-enter itself for the same timestamp
after a backoff sleep; that unbounded retry loop is modeled separately
by `process_date_attempts` over a prepared response list. -/
inductive ChainFetch
  | ok (snaps : List Snapshot)
  | fail_other
deriving DecidableEq, Repr

mutual

/-- Model of `_process_date(session, date, depth)` (lines 351-409) with
a deterministic fetch oracle.  `gas` encodes the remaining next-day
chain budget: `gas = max_next_day_depth + 1 - depth`, so the guard
`depth > 5` is `gas = 0`.  The body: return if the timestamp is
visited; count and return if its calendar date is already covered;
return if the depth bound is hit (logged, not fatal); otherwise mark
visited, fetch, and on success walk the snapshots.  The next-day
semaphore only serializes concurrent chains and is a no-op in this
sequential model. -/
def process_chain (env : SaveEnv) (fetch : UtcTime → ChainFetch) :
    Nat → UtcTime → Collector → Collector
  | gas, ts, c =>
    if ts ∈ c.visited_timestamps then c
    else if should_skip_date c.visited_timestamps ts then
      { c with stats := { c.stats with skipped_dates := c.stats.skipped_dates + 1 } }
    else
      match gas with
      | 0 => c
      | g + 1 =>
        let c :=
          { c with visited_timestamps := ts :: c.visited_timestamps
                   fetched := c.fetched ++ [ts] }
        match fetch ts with
        | .fail_other =>
          { c with stats := { c.stats with errors := c.stats.errors + 1 } }
        | .ok snaps => process_snaps env fetch g snaps c
termination_by gas ts c => (gas, 0)

/-- The `for snapshot in snapshots:` loop of `_process_date`
(lines 393-409): save each snapshot that carries data (counting a save
failure as an error), then follow a next-day pointer, if any, one depth
level deeper. -/
def process_snaps (env : SaveEnv) (fetch : UtcTime → ChainFetch) :
    Nat → List Snapshot → Collector → Collector
  | _, [], c => c
  | g, s :: rest, c =>
    let c := snap_save_step env s c
    let c :=
      match get_next_day_timestamp s with
      | some nts =>
        let c :=
          { c with
              stats :=
                { c.stats with
                    next_day_timestamps := c.stats.next_day_timestamps + 1 } }
        process_chain env fetch g nts c
      | none => c
    process_snaps env fetch g rest c
termination_by g snaps c => (g, snaps.length + 1)

end

/-- One prepared response of the fetch oracle used by the retry model:
a snapshot list, or an error string (rate limiting is recognized by the
frequency-limit marker in the text, as in `_handle_rate_limit`). -/
inductive FetchOutcome
  | ok (snaps : List Snapshot)
  | fail (error : String)
deriving DecidableEq, Repr

/-- The snapshot loop of `_process_date` without next-day recursion:
saves and counters as in `process_snaps`, with a found next-day pointer
only counted.  Used by the retry model; every theorem about it assumes
snapshots carry no cross-day pointer, so the elided recursion never
fires. -/
def save_snaps_here (env : SaveEnv) (snaps : List Snapshot)
    (c : Collector) : Collector :=
  snaps.foldl
    (fun c s =>
      let c := snap_save_step env s c
      match get_next_day_timestamp s with
      | some _ =>
        { c with
            stats :=
              { c.stats with
                  next_day_timestamps := c.stats.next_day_timestamps + 1 } }
      | none => c)
    c

/-- Model of `_process_date` at one timestamp over a prepared list of
fetch responses, capturing the rate-limit retry loop (lines 361-391):
an error containing the frequency-limit marker increments the retry
counter, sleeps, removes the timestamp from the visited set and
re-enters the same timestamp at the same depth on the next prepared
response; an error without the marker abandons the node with
`errors += 1`; a success saves the returned snapshots.  An exhausted
response list returns the state as is (model horizon; the source would
still be awaiting a response). -/
def process_date_attempts (env : SaveEnv) (oracle : List FetchOutcome)
    (ts : UtcTime) (depth : Nat) (c : Collector) : Collector :=
    if ts ∈ c.visited_timestamps then c
    else if should_skip_date c.visited_timestamps ts then
      { c with stats := { c.stats with skipped_dates := c.stats.skipped_dates + 1 } }
    else if max_next_day_depth < depth then c
    else
      let c :=
        { c with visited_timestamps := ts :: c.visited_timestamps
                 fetched := c.fetched ++ [ts] }
      match oracle with
      | [] => c
      | r :: rest =>
        match r with
        | .ok snaps => save_snaps_here env snaps c
        | .fail e =>
          match handle_rate_limit c.stats e with
          | (stats, some _) =>
            let c :=
              { c with stats := stats
                       visited_timestamps := c.visited_timestamps.erase ts }
            process_date_attempts env rest ts depth c
          | (stats, none) =>
            { c with stats := { stats with errors := stats.errors + 1 } }

/-- One dispatch of `process_with_semaphore` inside
`collect_historical_odds` (lines 427-430): walk the seed date, then
count it processed. -/
def dispatch_step (env : SaveEnv) (fetch : UtcTime → ChainFetch)
    (c : Collector) (d : UtcTime) : Collector :=
  let c := process_chain env fetch (max_next_day_depth + 1) d c
  { c with
      stats := { c.stats with processed_dates := c.stats.processed_dates + 1 } }

/-- Model of `HistoricalOddsCollector.collect_historical_odds`
(lines 411-446): record the date count, then dispatch every seed date
to `_process_date`, counting `processed_dates` after each.  The
`asyncio` gather with its semaphore bounds concurrency only; the model
runs the dispatches in order. -/
def collect_run (env : SaveEnv) (fetch : UtcTime → ChainFetch)
    (dates : List UtcTime) (c : Collector) : Collector :=
  dates.foldl (dispatch_step env fetch)
    { c with stats := { c.stats with total_dates := dates.length } }

/-- A committed row of `nba_game_lines.odds_snapshots` as written by
`HistoricalDataService.create_odds_snapshot`
(`src/src/services/data/historical_data_service.py` lines 224-273). -/
structure SvcSnapshotRow where
  id : Nat
  game_id : String
  snapshot_timestamp : UtcTime
  previous_snapshot_timestamp : Option UtcTime
  next_snapshot_timestamp : Option UtcTime
deriving DecidableEq, Repr

/-- A committed row of `nba_game_lines.game_odds` as written by
`HistoricalDataService.store_odds` (lines 275-394).  The `markets`
jsonb blob is carried as the raw market list. -/
structure SvcOddsRow where
  game_id : String
  snapshot_id : Nat
  bookmaker_key : String
  bookmaker_title : String
  home_spread : Option Rat
  away_spread : Option Rat
  home_spread_odds : Option Rat
  away_spread_odds : Option Rat
  home_moneyline : Option Rat
  away_moneyline : Option Rat
  over_under : Option Rat
  over_odds : Option Rat
  under_odds : Option Rat
  markets : List MarketData
  odds_updated_at : UtcTime
deriving DecidableEq, Repr

/-- The store as seen through `HistoricalDataService`: committed
snapshot-envelope rows and committed quote rows.  `next_id` generates
the serial primary key returned by the envelope insert. -/
structure SvcDb where
  next_id : Nat
  snapshots : List SvcSnapshotRow
  game_odds : List SvcOddsRow
deriving DecidableEq, Repr

/-- Model of `create_odds_snapshot` (lines 224-273): insert one
envelope row and commit it at once on its own connection
(`conn.commit()` inside the function), returning the new row id. -/
def create_odds_snapshot (db : SvcDb) (api_game_id : String)
    (ts : UtcTime) (prev nxt : Option UtcTime) : SvcDb × Nat :=
  let sid := db.next_id
  ({ db with
      next_id := sid + 1
      snapshots := db.snapshots ++ [⟨sid, api_game_id, ts, prev, nxt⟩] },
    sid)

/-- The quote row `store_odds` builds for one bookmaker (lines 322-393):
market fields start as `None`; a `spreads` market fills the spread
fields outcome by outcome (an outcome not named like the home team is
the away side, per the bare `else`), an `h2h` market the moneylines,
and a `totals` market the over/under fields from the first `Over` and
`Under` outcomes. -/
def svc_row (g : GameData) (sid : Nat) (bm : BookmakerData) : SvcOddsRow :=
  let base : SvcOddsRow :=
    ⟨g.id, sid, bm.key, bm.title, none, none, none, none, none, none,
      none, none, none, bm.markets, bm.last_update⟩
  bm.markets.foldl
    (fun r m =>
      if m.key = "spreads" then
        m.outcomes.foldl
          (fun r o =>
            if o.name = g.home_team then
              { r with home_spread := o.point, home_spread_odds := some o.price }
            else
              { r with away_spread := o.point, away_spread_odds := some o.price })
          r
      else if m.key = "h2h" then
        m.outcomes.foldl
          (fun r o =>
            if o.name = g.home_team then
              { r with home_moneyline := some o.price }
            else
              { r with away_moneyline := some o.price })
          r
      else if m.key = "totals" then
        { r with
            over_under := ((m.outcomes.find? fun o => o.name = "Over").bind
              fun o => o.point)
            over_odds := ((m.outcomes.find? fun o => o.name = "Over").map
              fun o => o.price)
            under_odds := ((m.outcomes.find? fun o => o.name = "Under").map
              fun o => o.price) }
      else r)
    base

/-- Model of `store_odds(snapshot_id, odds_data)` (lines 275-394): all
quote rows of the game are inserted on one connection and committed
together at the end of the loop; `fail` injects a connection or
constraint failure before that single commit, in which case nothing is
persisted and the exception propagates. -/
def store_odds (fail : Bool) (sid : Nat) (g : GameData) (db : SvcDb) :
    Except Unit SvcDb :=
  if fail then .error ()
  else
    .ok { db with
            game_odds := db.game_odds ++ g.bookmakers.map (svc_row g sid) }

/-- Per-game body of `HistoricalDataService.collect_historical_odds`
(lines 446-485): create the envelope (committed immediately), then
store the quotes; a `store_odds` failure is caught by the surrounding
per-timestamp `except`, which moves on, leaving the committed state as
it stands. -/
def service_write_game (fail_store : Bool) (g : GameData) (ts : UtcTime)
    (prev nxt : Option UtcTime) (db : SvcDb) : SvcDb :=
  let p := create_odds_snapshot db g.id ts prev nxt
  match store_odds fail_store p.2 g p.1 with
  | .ok db2 => db2
  | .error _ => p.1

/-- One HTTP response as classified by `_make_request` of
`src/src/data_collection/clients/odds_api_client.py`. -/
structure HttpResponse where
  status : Nat
  body : String
deriving DecidableEq, Repr

/-- The exceptions `_make_request` can raise: `OddsAPIRateLimitError`
on status 429, or the `aiohttp` error of `raise_for_status()`. -/
inductive ReqError
  | rate_limited
  | client_error (status : Nat)
deriving DecidableEq, Repr

/-- Model of one bare `_make_request` attempt (lines 75-111): on
status 429 raise `OddsAPIRateLimitError`; on any other non-success
status `raise_for_status()` raises; otherwise return the body.  The
response body is never inspected for the frequency-limit marker here. -/
def make_request (resp : HttpResponse) : Except ReqError String :=
  if resp.status = 429 then .error .rate_limited
  else if 400 ≤ resp.status then .error (.client_error resp.status)
  else .ok resp.body

/-- The `tenacity` `@retry(stop=stop_after_attempt(3), ...)` decorator
on `_make_request`: run attempts against the prepared responses
(`resps n` is the response of the n-th wire call) until one succeeds or
the attempt budget is spent, then reraise.  Results: the final outcome
and the number of wire calls made. -/
def tenacity_attempts (resps : Nat → HttpResponse) :
    Nat → Nat → Except ReqError String × Nat
  | 0, used => (.error .rate_limited, used)
  | left + 1, used =>
    match make_request (resps used) with
    | .ok v => (.ok v, used + 1)
    | .error e =>
      if left = 0 then (.error e, used + 1)
      else tenacity_attempts resps left (used + 1)

/-- The decorated `_make_request` as callers see it:
`stop_after_attempt(3)`. -/
def make_request_retried (resps : Nat → HttpResponse) :
    Except ReqError String × Nat :=
  tenacity_attempts resps 3 0

/-- One loop iteration's wire outcome for the script model of
`scripts/collect_historical_odds.py`: a falsy response (the client
swallowed a transport error or the data is absent), a stored snapshot
with its optional `next_timestamp`, or an exception from the body
(e.g. a `store_odds_snapshot` failure). -/
inductive ScriptFetch
  | empty
  | ok (next : Option Nat)
  | exc
deriving DecidableEq, Repr

/-- State of the `collect_historical_odds` script loop (lines 66-138).
Timestamps are UTC seconds (canonical ISO strings compare the same
way); `completed` records leaving the loop through its natural ends
(`current > end`, or a missing/out-of-range `next_timestamp`), and
`aborted` records the `error_count >= 5` break. -/
structure ScriptState where
  current : Nat
  request_count : Nat
  error_count : Nat
  snapshots_stored : Nat
  completed : Bool
  aborted : Bool
deriving DecidableEq, Repr

/-- Model of the script's while loop (lines 82-129): on a falsy
response advance one hour and keep going; on data, store it and follow
`next_timestamp`, stopping when it is missing or past `end_date`; on an
exception, count it and stop the whole run once 5 errors have
accumulated (the counter is never reset), else retry the same
timestamp.  The prepared list feeds one entry per iteration; an
exhausted list leaves the run where it stands (model horizon). -/
def script_loop (end_date : Nat) :
    List ScriptFetch → ScriptState → ScriptState
  | [], st => st
  | o :: rest, st =>
    if end_date < st.current then { st with completed := true }
    else
      match o with
      | .empty =>
        script_loop end_date rest
          { st with request_count := st.request_count + 1
                    current := st.current + 3600 }
      | .ok nxt =>
        let st :=
          { st with request_count := st.request_count + 1
                    snapshots_stored := st.snapshots_stored + 1 }
        match nxt with
        | none => { st with completed := true }
        | some n =>
          if end_date < n then { st with current := n, completed := true }
          else script_loop end_date rest { st with current := n }
      | .exc =>
        let st := { st with error_count := st.error_count + 1 }
        if 5 ≤ st.error_count then { st with aborted := true }
        else script_loop end_date rest st

/-- Sample calendar day 2024-01-01. -/
def d1 : CalDate := ⟨2024, 1, 1⟩

/-- Sample calendar day 2024-01-02. -/
def d2 : CalDate := ⟨2024, 1, 2⟩

/-- Seed timestamp 2024-01-01T00:00:00Z. -/
def tA : UtcTime := ⟨d1, 0⟩

/-- Same-day timestamp 2024-01-01T00:05:00Z. -/
def tC : UtcTime := ⟨d1, 300⟩

/-- Next-day timestamp 2024-01-02T00:05:00Z. -/
def tB : UtcTime := ⟨d2, 300⟩

/-- Environment with empty master tables and an always-healthy store. -/
def env0 : SaveEnv := ⟨fun _ => none, fun _ => none, fun _ => false⟩

/-- Fetch oracle whose seed snapshot points at an unvisited timestamp on
the same calendar day. -/
def fetch_same_day : UtcTime → ChainFetch := fun t =>
  if t = tA then .ok [⟨tA, none, some tC, []⟩] else .ok []

/-- Fetch oracle whose seed snapshot points at a timestamp on the next
calendar day, which in turn ends the chain. -/
def fetch_cross_day : UtcTime → ChainFetch := fun t =>
  if t = tA then .ok [⟨tA, none, some tB, []⟩]
  else if t = tB then .ok [⟨tB, none, none, []⟩]
  else .ok []

/-- Fetch oracle forming the synthetic cycle A points to B, B points
back to A (with A a day before B). -/
def fetch_cycle : UtcTime → ChainFetch := fun t =>
  if t = tA then .ok [⟨tA, none, some tB, []⟩]
  else if t = tB then .ok [⟨tB, none, some tA, []⟩]
  else .ok []

/-- Midnight of the n-th consecutive January 2024 day. -/
def day_n (n : Nat) : UtcTime := ⟨⟨2024, 1, n + 1⟩, 0⟩

/-- Fetch oracle forming an unbounded linear next-day chain: every
timestamp's snapshot points at the following midnight. -/
def fetch_linear : UtcTime → ChainFetch := fun t =>
  .ok [⟨t, none, some ⟨⟨t.date.year, t.date.month, t.date.day + 1⟩, 0⟩, []⟩]

/-- Fetch oracle that always fails without a rate-limit marker. -/
def fetch_failing : UtcTime → ChainFetch := fun _ => .fail_other

/-- A rate-limit error string as surfaced by the API client. -/
def rl_error : String := "API error: EXCEEDED_FREQ_LIMIT"

/-- Environment resolving the two sample teams and one bookmaker, with
an always-healthy store. -/
def env1 : SaveEnv :=
  ⟨fun n => if n = "LAL" then some 1 else if n = "GSW" then some 2 else none,
    fun k => if k = "dk" then some 7 else none,
    fun _ => false⟩

/-- Sample game payload at its first sighting: one bookmaker quoting a
moneyline. -/
def game_s1 : GameData :=
  ⟨"g1", ⟨d1, 3600⟩, "LAL", "GSW",
    [⟨"dk", "DraftKings", ⟨d1, 0⟩,
      [⟨"h2h", [⟨"LAL", -110, none⟩, ⟨"GSW", -105, none⟩]⟩]⟩]⟩

/-- The same provider game seen again at a later snapshot with moved
prices. -/
def game_s2 : GameData :=
  ⟨"g1", ⟨d1, 3600⟩, "LAL", "GSW",
    [⟨"dk", "DraftKings", ⟨d1, 300⟩,
      [⟨"h2h", [⟨"LAL", -120, none⟩, ⟨"GSW", 100, none⟩]⟩]⟩]⟩

/-- First snapshot carrying `game_s1`. -/
def snap_s1 : Snapshot := ⟨tA, none, some tC, [game_s1]⟩

/-- Later snapshot carrying the same provider game with new quotes. -/
def snap_s2 : Snapshot := ⟨tC, some tA, none, [game_s2]⟩

/-- The pair of run-level counters (`processed_dates`, `total_dates`),
used to state that walking a day never touches them. -/
def walk_ctr (c : Collector) : Nat × Nat :=
  (c.stats.processed_dates, c.stats.total_dates)

/-- A bookmaker payload whose h2h market is complete but whose spreads
market's home-named outcome carries no point: parsing it raises
`KeyError` after the h2h row was already added to the session. -/
def bm_badspread : BookmakerData :=
  ⟨"dk", "DraftKings", ⟨d1, 0⟩,
    [⟨"h2h", [⟨"LAL", -110, none⟩, ⟨"GSW", -105, none⟩]⟩,
      ⟨"spreads", [⟨"LAL", -110, none⟩, ⟨"GSW", -105, some 3⟩]⟩]⟩

/-- The same payload with the home spread point present. -/
def bm_goodspread : BookmakerData :=
  ⟨"dk", "DraftKings", ⟨d1, 0⟩,
    [⟨"h2h", [⟨"LAL", -110, none⟩, ⟨"GSW", -105, none⟩]⟩,
      ⟨"spreads", [⟨"LAL", -110, some (-3)⟩, ⟨"GSW", -105, some 3⟩]⟩]⟩

/-- Game record whose spreads parsing raises `KeyError`. -/
def game_bad : GameData := ⟨"gb", ⟨d1, 3600⟩, "LAL", "GSW", [bm_badspread]⟩

/-- The same provider game with a well-formed payload. -/
def game_gb_ok : GameData :=
  ⟨"gb", ⟨d1, 3600⟩, "LAL", "GSW", [bm_goodspread]⟩

/-- A later, well-formed game arriving in the following snapshot. -/
def game_g2 : GameData :=
  ⟨"g2", ⟨d1, 7200⟩, "LAL", "GSW",
    [⟨"dk", "DraftKings", ⟨d1, 0⟩,
      [⟨"h2h", [⟨"LAL", 100, none⟩, ⟨"GSW", -120, none⟩]⟩]⟩]⟩

/-- Snapshot carrying the raising game. -/
def snap_bad : Snapshot := ⟨tA, none, none, [game_bad]⟩

/-- Snapshot carrying the well-formed variant of the same game. -/
def snap_gb_ok : Snapshot := ⟨tA, none, none, [game_gb_ok]⟩

/-- The next snapshot, carrying an unrelated well-formed game. -/
def snap_g2 : Snapshot := ⟨tC, some tA, none, [game_g2]⟩

/-- Code points below 91 survive the `Char.ofNat` round trip. -/
theorem char_ofNat_toNat_lt_91 : ∀ m, m < 91 → (Char.ofNat m).toNat = m := by
  decide

/-- A character produced by `upper_ascii` that is alphabetic is an
upper-case letter. -/
theorem upper_ascii_alpha_upper (c : Char)
    (h : is_alpha_ascii (upper_ascii c) = true) :
    is_upper_ascii (upper_ascii c) = true := by
  by_cases hc : 97 ≤ c.toNat ∧ c.toNat ≤ 122
  · have hv : (Char.ofNat (c.toNat - 32)).toNat = c.toNat - 32 :=
      char_ofNat_toNat_lt_91 _ (by omega)
    simp only [upper_ascii, if_pos hc] at h ⊢
    simp only [is_upper_ascii, decide_eq_true_eq, hv]
    omega
  · simp only [upper_ascii, if_neg hc] at h ⊢
    simp only [is_alpha_ascii, decide_eq_true_eq] at h
    simp only [is_upper_ascii, decide_eq_true_eq]
    omega

/-- C3.  Idempotent identity derivation, confirmed on
`store_odds_snapshot`: the derived id is a pure function of the
calendar date of `commence_time` and the two team names (two records
agreeing there get byte-identical ids, whatever their provider ids,
kick-off seconds or bookmaker payloads); it has the exact shape
`NBA-YYYY-MM-DD-HOME-AWAY`; and each team code is an alphabetic-only,
upper-case string of at most three characters obtained from the
upper-cased team name. -/
theorem store_game_id_deterministic :
    (∀ g1 g2 : GameData,
        g1.commence_time.date = g2.commence_time.date →
        g1.home_team = g2.home_team →
        g1.away_team = g2.away_team →
        store_game_id g1 = store_game_id g2) ∧
    (∀ g : GameData,
        store_game_id g =
          "NBA-" ++ g.commence_time.date.fmt ++ "-" ++
            team_abbr g.home_team ++ "-" ++ team_abbr g.away_team) ∧
    (∀ s : String,
        (team_abbr s).length ≤ 3 ∧
        ∀ c ∈ (team_abbr s).data,
          is_alpha_ascii c = true ∧ is_upper_ascii c = true) := by
  refine ⟨?_, fun _ => rfl, ?_⟩
  · intro g1 g2 hd hh ha
    simp only [store_game_id, hd, hh, ha]
  · intro s
    constructor
    · show (String.mk _).length ≤ 3
      simpa [String.length] using List.length_take_le 3 _
    · intro c hc
      simp only [team_abbr, String.mk] at hc
      have hmem := List.mem_of_mem_take hc
      have halpha := List.of_mem_filter hmem
      have hmap := List.mem_of_mem_filter hmem
      rcases List.mem_map.mp hmap with ⟨c0, _, rfl⟩
      exact ⟨halpha, upper_ascii_alpha_upper c0 halpha⟩

/-- C3 witness: two sightings of the same real game, fetched at
different provider timestamps and with different provider ids and
payloads, derive the same internal id. -/
theorem store_game_id_deterministic_witness :
    store_game_id ⟨"idA", ⟨⟨2024, 1, 1⟩, 100⟩, "LA Lakers", "GS Warriors", []⟩ =
      store_game_id
        ⟨"idB", ⟨⟨2024, 1, 1⟩, 7000⟩, "LA Lakers", "GS Warriors",
          [⟨"dk", "DraftKings", ⟨⟨2024, 1, 1⟩, 0⟩, []⟩]⟩ :=
  store_game_id_deterministic.1 _ _ rfl rfl rfl

/-- C5 counterexample: on a fresh run the first rate-limited response
makes the code sleep `min(2 ** 1, 30) = 2` seconds, not the 1 second of
the claimed base-1 schedule (`_handle_rate_limit` increments the
counter before computing the delay). -/
theorem first_backoff_delay_is_two :
    (handle_rate_limit init_stats "EXCEEDED_FREQ_LIMIT").2 = some 2 ∧
      (2 : Nat) ≠ 1 := by
  constructor
  · decide
  · decide

/-- C5 amended: the k-th rate-limit hit of a run (the counter is
run-wide and never reset) sleeps `min(2 ** k, 30)` seconds, so the
delays start at 2 seconds, double per hit, are non-decreasing, and
never exceed the 30-second cap; an error without the marker changes
nothing and sleeps nothing. -/
theorem backoff_doubles_from_two_capped :
    (∀ (stats : CollectionStats) (error : String),
        error_has_marker error = true →
        (handle_rate_limit stats error).1 =
          { stats with rate_limit_retries := stats.rate_limit_retries + 1 } ∧
        (handle_rate_limit stats error).2 =
          some (nth_delay (stats.rate_limit_retries + 1))) ∧
    (∀ (stats : CollectionStats) (error : String),
        error_has_marker error = false →
        handle_rate_limit stats error = (stats, none)) ∧
    (∀ j k, j ≤ k → nth_delay j ≤ nth_delay k) ∧
    (∀ k, nth_delay k ≤ 30) ∧
    nth_delay 1 = 2 := by
  refine ⟨?_, ?_, ?_, ?_, by decide⟩
  · intro stats error h
    simp [handle_rate_limit, h, nth_delay]
  · intro stats error h
    simp [handle_rate_limit, h]
  · intro j k hjk
    exact min_le_min (Nat.pow_le_pow_right (by decide) hjk) le_rfl
  · intro k
    exact Nat.min_le_right _ _

/-- C5 witness: a concrete rate-limited error on a fresh run increments
the counter and sleeps the first delay of the schedule, and the
schedule is monotone between hits 3 and 5. -/
theorem backoff_doubles_witness :
    (handle_rate_limit init_stats rl_error).1 =
      { init_stats with
          rate_limit_retries := init_stats.rate_limit_retries + 1 } ∧
    (handle_rate_limit init_stats rl_error).2 =
      some (nth_delay (init_stats.rate_limit_retries + 1)) ∧
    nth_delay 3 ≤ nth_delay 5 :=
  ⟨(backoff_doubles_from_two_capped.1 init_stats rl_error (by decide)).1,
    (backoff_doubles_from_two_capped.1 init_stats rl_error (by decide)).2,
    backoff_doubles_from_two_capped.2.2.1 3 5 (by decide)⟩

/-- C6 counterexample: `_make_request` on an HTTP 429 response raises
`OddsAPIRateLimitError` instead of returning a rate-limited outcome;
its `tenacity` decorator then makes three wire calls for one logical
request (two internal retries) before re-raising; and a 200 response
whose body carries the frequency-limit marker is returned as plain
success, the body marker being inspected only by the collector. -/
theorem make_request_429_raises_and_retries :
    make_request ⟨429, ""⟩ = .error .rate_limited ∧
    (make_request_retried fun _ => ⟨429, ""⟩).2 = 3 ∧
    make_request ⟨200, "EXCEEDED_FREQ_LIMIT"⟩ = .ok "EXCEEDED_FREQ_LIMIT" := by
  refine ⟨rfl, by decide, rfl⟩

/-- C6 amended: on HTTP 429 `_make_request` raises
`OddsAPIRateLimitError` (it never returns a rate-limited value and
never reads the body marker); the `tenacity` decorator retries the
request internally, making at most 3 wire calls per logical call; a 429
followed by a success returns the success on the second wire call. -/
theorem make_request_retry_contract :
    (∀ resp : HttpResponse, resp.status = 429 →
        make_request resp = .error .rate_limited) ∧
    (∀ resps : Nat → HttpResponse, (make_request_retried resps).2 ≤ 3) ∧
    (∀ resps : Nat → HttpResponse,
        (resps 0).status = 429 → (resps 1).status = 200 →
        make_request_retried resps = (.ok (resps 1).body, 2)) := by
  have attempts_le :
      ∀ (resps : Nat → HttpResponse) (left used : Nat),
        (tenacity_attempts resps left used).2 ≤ used + left := by
    intro resps left
    induction left with
    | zero => intro used; simp [tenacity_attempts]
    | succ n ih =>
      intro used
      simp only [tenacity_attempts]
      match make_request (resps used) with
      | .ok v => simp
      | .error e =>
        by_cases hn : n = 0
        · subst hn; simp
        · simp only [if_neg hn]
          calc (tenacity_attempts resps n (used + 1)).2 ≤ used + 1 + n := ih (used + 1)
            _ = used + (n + 1) := by omega
  refine ⟨?_, fun resps => attempts_le resps 3 0, ?_⟩
  · intro resp h
    simp [make_request, h]
  · intro resps h0 h1
    have m0 : make_request (resps 0) = .error .rate_limited := by
      simp [make_request, h0]
    have m1 : make_request (resps 1) = .ok (resps 1).body := by
      simp [make_request, h1]
    simp [make_request_retried, tenacity_attempts, m0, m1]

/-- C6 witness: a 429 response raises, and a 429 followed by a 200
succeeds on the second wire call with the second response's body. -/
theorem make_request_retry_contract_witness :
    make_request ⟨429, "too many"⟩ = .error .rate_limited ∧
    make_request_retried
        (fun n => if n = 0 then ⟨429, "too many"⟩ else ⟨200, "payload"⟩) =
      (.ok (if (1 : Nat) = 0 then "too many" else "payload"), 2) :=
  ⟨make_request_retry_contract.1 ⟨429, "too many"⟩ rfl,
    make_request_retry_contract.2.2
      (fun n => if n = 0 then ⟨429, "too many"⟩ else ⟨200, "payload"⟩)
      (by decide) (by decide)⟩

/-- A `_save_to_db` step on one game never touches the walk-level
state: visited timestamps, emission and fetch logs, nor the
date-processing, rate-limit and skip counters. -/
theorem save_game_frame (env : SaveEnv) (ts : UtcTime) (g : GameData)
    (c : Collector) :
    (save_game env ts g c).1.visited_timestamps = c.visited_timestamps ∧
    (save_game env ts g c).1.emitted = c.emitted ∧
    (save_game env ts g c).1.fetched = c.fetched ∧
    (save_game env ts g c).1.stats.processed_dates = c.stats.processed_dates ∧
    (save_game env ts g c).1.stats.total_dates = c.stats.total_dates ∧
    (save_game env ts g c).1.stats.rate_limit_retries =
      c.stats.rate_limit_retries ∧
    (save_game env ts g c).1.stats.skipped_dates = c.stats.skipped_dates := by
  unfold save_game
  repeat' split <;> try simp_all

/-- The `_save_to_db` game loop preserves the walk-level state. -/
theorem save_loop_frame (env : SaveEnv) (ts : UtcTime) :
    ∀ (games : List GameData) (c : Collector),
    (save_loop env ts games c).1.visited_timestamps = c.visited_timestamps ∧
    (save_loop env ts games c).1.emitted = c.emitted ∧
    (save_loop env ts games c).1.fetched = c.fetched ∧
    (save_loop env ts games c).1.stats.processed_dates =
      c.stats.processed_dates ∧
    (save_loop env ts games c).1.stats.total_dates = c.stats.total_dates ∧
    (save_loop env ts games c).1.stats.rate_limit_retries =
      c.stats.rate_limit_retries ∧
    (save_loop env ts games c).1.stats.skipped_dates =
      c.stats.skipped_dates := by
  intro games
  induction games with
  | nil => intro c; simp [save_loop]
  | cons g rest ih =>
    intro c
    simp only [save_loop]
    rcases hsg : save_game env ts g c with ⟨c1, b⟩
    have hframe := save_game_frame env ts g c
    rw [hsg] at hframe
    cases b
    · have := ih c1
      simp_all
    · simp_all

/-- `_save_to_db` preserves the walk-level state. -/
theorem save_to_db_frame (env : SaveEnv) (snap : Snapshot) (c : Collector) :
    (save_to_db env snap c).1.visited_timestamps = c.visited_timestamps ∧
    (save_to_db env snap c).1.emitted = c.emitted ∧
    (save_to_db env snap c).1.fetched = c.fetched ∧
    (save_to_db env snap c).1.stats.processed_dates =
      c.stats.processed_dates ∧
    (save_to_db env snap c).1.stats.total_dates = c.stats.total_dates ∧
    (save_to_db env snap c).1.stats.rate_limit_retries =
      c.stats.rate_limit_retries ∧
    (save_to_db env snap c).1.stats.skipped_dates =
      c.stats.skipped_dates :=
  save_loop_frame env snap.timestamp snap.data c

/-- C10 counterexample: after a failed (non-rate-limit) fetch for `tA`,
re-processing the *identical* timestamp returns through the
visited-set check without fetching, but the skipped-date counter stays
at 0 — the claim's parenthetical "counted as a skipped date" fails for
the exact timestamp itself (only a *different* same-day timestamp is
counted, see the amended theorem). -/
theorem failed_seed_identical_timestamp_not_counted :
    (process_chain env0 fetch_failing (max_next_day_depth + 1) tA
        (process_chain env0 fetch_failing (max_next_day_depth + 1) tA
          init_collector) =
      process_chain env0 fetch_failing (max_next_day_depth + 1) tA
        init_collector) ∧
    (process_chain env0 fetch_failing (max_next_day_depth + 1) tA
        init_collector).visited_timestamps = [tA] ∧
    (process_chain env0 fetch_failing (max_next_day_depth + 1) tA
        init_collector).stats.errors = 1 ∧
    (process_chain env0 fetch_failing (max_next_day_depth + 1) tA
        init_collector).fetched = [tA] ∧
    (process_chain env0 fetch_failing (max_next_day_depth + 1) tA
        (process_chain env0 fetch_failing (max_next_day_depth + 1) tA
          init_collector)).stats.skipped_dates = 0 := by
  have h1 :
      process_chain env0 fetch_failing (max_next_day_depth + 1) tA
          init_collector =
        { init_collector with
            visited_timestamps := [tA]
            fetched := [tA]
            stats := { init_stats with errors := 1 } } := by
    simp [process_chain, max_next_day_depth, fetch_failing, should_skip_date,
      init_collector, init_stats]
  rw [h1]
  refine ⟨?_, rfl, rfl, rfl, ?_⟩
  · simp [process_chain, init_collector, init_stats]
  · simp [process_chain, init_collector, init_stats]

/-- C10 amended: a timestamp whose fetch fails with a non-rate-limit
error stays in the visited set with the error counted; afterwards any
*other* timestamp on the same calendar date returns without fetching
and is counted as a skipped date, while re-processing the *identical*
timestamp returns without fetching through the visited check and
increments nothing — either way the whole calendar day is treated as
covered for the rest of the run although nothing was persisted for
it. -/
theorem failed_seed_blocks_whole_day :
    (∀ (env : SaveEnv) (fetch : UtcTime → ChainFetch) (g : Nat)
        (ts : UtcTime) (c : Collector),
        ts ∉ c.visited_timestamps →
        should_skip_date c.visited_timestamps ts = false →
        fetch ts = .fail_other →
        process_chain env fetch (g + 1) ts c =
          { c with
              visited_timestamps := ts :: c.visited_timestamps
              fetched := c.fetched ++ [ts]
              stats := { c.stats with errors := c.stats.errors + 1 } }) ∧
    (∀ (env : SaveEnv) (fetch : UtcTime → ChainFetch) (gas : Nat)
        (ts t : UtcTime) (c : Collector),
        ts ∉ c.visited_timestamps →
        t ∈ c.visited_timestamps →
        t.date = ts.date →
        process_chain env fetch gas ts c =
          { c with
              stats :=
                { c.stats with skipped_dates := c.stats.skipped_dates + 1 } }) ∧
    (∀ (env : SaveEnv) (fetch : UtcTime → ChainFetch) (gas : Nat)
        (ts : UtcTime) (c : Collector),
        ts ∈ c.visited_timestamps →
        process_chain env fetch gas ts c = c) := by
  refine ⟨?_, ?_, ?_⟩
  · intro env fetch g ts c hmem hskip hfetch
    simp [process_chain, hmem, hskip, hfetch]
  · intro env fetch gas ts t c hmem ht hdate
    have hskip : should_skip_date c.visited_timestamps ts = true :=
      List.any_eq_true.mpr ⟨t, ht, by simp [hdate]⟩
    cases gas <;> simp [process_chain, hmem, hskip]
  · intro env fetch gas ts c hmem
    cases gas <;> simp [process_chain, hmem]

/-- C10 witness: concretely, after the failed seed `tA`, the same-day
timestamp `tC` is skipped and counted, and the identical seed returns
unchanged. -/
theorem failed_seed_blocks_whole_day_witness :
    (process_chain env0 fetch_failing (max_next_day_depth + 1) tA
        init_collector =
      { init_collector with
          visited_timestamps := [tA]
          fetched := [tA]
          stats := { init_collector.stats with
                       errors := init_collector.stats.errors + 1 } }) ∧
    (process_chain env0 fetch_failing (max_next_day_depth + 1) tC
        { init_collector with visited_timestamps := [tA] } =
      { init_collector with
          visited_timestamps := [tA]
          stats := { init_collector.stats with
                       skipped_dates := init_collector.stats.skipped_dates + 1 } }) ∧
    (process_chain env0 fetch_failing (max_next_day_depth + 1) tA
        { init_collector with visited_timestamps := [tA] } =
      { init_collector with visited_timestamps := [tA] }) :=
  ⟨failed_seed_blocks_whole_day.1 env0 fetch_failing max_next_day_depth tA
      init_collector (by decide) (by decide) rfl,
    failed_seed_blocks_whole_day.2.1 env0 fetch_failing
      (max_next_day_depth + 1) tC tA
      { init_collector with visited_timestamps := [tA] }
      (by decide) (by decide) (by decide),
    failed_seed_blocks_whole_day.2.2 env0 fetch_failing
      (max_next_day_depth + 1) tA
      { init_collector with visited_timestamps := [tA] } (by decide)⟩

/-- C1 counterexample: the walker does the opposite of the claimed
same-day bound.  `_get_next_day_timestamp` returns `None` for a
same-day pointer, so an existing, unvisited, same-day `next_timestamp`
(`tC`) is never enqueued and the walk seeded at `tA` visits only `tA`;
whereas a pointer onto the *next* calendar day (`tB`) is returned and
followed at depth+1, so the walk visits `tB`, whose date differs from
the seed's. -/
theorem same_day_bound_refuted :
    get_next_day_timestamp ⟨tA, none, some tC, []⟩ = none ∧
    get_next_day_timestamp ⟨tA, none, some tB, []⟩ = some tB ∧
    tB.date ≠ tA.date ∧
    (process_chain env0 fetch_same_day (max_next_day_depth + 1) tA
        init_collector).visited_timestamps = [tA] ∧
    (process_chain env0 fetch_cross_day (max_next_day_depth + 1) tA
        init_collector).visited_timestamps = [tB, tA] := by
  refine ⟨by decide, by decide, by decide, ?_, ?_⟩
  · simp [process_chain, process_snaps, snap_save_step, max_next_day_depth, fetch_same_day,
      should_skip_date, init_collector, init_stats, get_next_day_timestamp,
      CalDate.ltB, tA, tC, d1, save_to_db, save_loop]
  · simp [process_chain, process_snaps, snap_save_step, max_next_day_depth, fetch_cross_day,
      should_skip_date, init_collector, init_stats, get_next_day_timestamp,
      CalDate.ltB, tA, tB, d1, d2, save_to_db, save_loop]

/-- C1 amended: `_process_date` follows a snapshot's `next_timestamp`
(at depth+1) exactly when it exists and its calendar date is *strictly
later* than the snapshot's own date; a same-day pointer is never
followed by `_process_date` — same-day chain traversal is delegated to
the fetch call's `max_snapshots` parameter inside the client. -/
theorem next_day_pointer_strictly_later (s : Snapshot) (t : UtcTime) :
    get_next_day_timestamp s = some t ↔
      s.next_timestamp = some t ∧
        CalDate.ltB s.timestamp.date t.date = true := by
  cases h : s.next_timestamp with
  | none => simp [get_next_day_timestamp, h]
  | some nts =>
    simp only [get_next_day_timestamp, h]
    by_cases hb : CalDate.ltB s.timestamp.date nts.date = true
    · simp only [if_pos hb, Option.some_inj]
      constructor
      · rintro rfl
        exact ⟨rfl, hb⟩
      · rintro ⟨heq, _⟩
        exact heq
    · simp only [if_neg hb]
      constructor
      · rintro ⟨⟩
      · rintro ⟨heq, hlt⟩
        cases Option.some_inj.mp heq
        exact absurd hlt hb

/-- C7 counterexample: the next-day chain depth bound is the hard-coded
5 of `_process_date`, not a configured default of 10: on an unbounded
linear next-day chain the walk fetches exactly the six nodes of depths
0 through 5 and stops, although the sixth node's snapshot points at an
existing, unvisited seventh node (which a depth bound of 10 would still
have visited). -/
theorem depth_bound_not_ten :
    (process_chain env0 fetch_linear (max_next_day_depth + 1) (day_n 0)
        init_collector).fetched =
      [day_n 0, day_n 1, day_n 2, day_n 3, day_n 4, day_n 5] ∧
    fetch_linear (day_n 5) = .ok [⟨day_n 5, none, some (day_n 6), []⟩] ∧
    day_n 6 ∉
      (process_chain env0 fetch_linear (max_next_day_depth + 1) (day_n 0)
          init_collector).visited_timestamps := by
  have h :
      process_chain env0 fetch_linear (max_next_day_depth + 1) (day_n 0)
          init_collector =
        { init_collector with
            visited_timestamps :=
              [day_n 5, day_n 4, day_n 3, day_n 2, day_n 1, day_n 0]
            fetched := [day_n 0, day_n 1, day_n 2, day_n 3, day_n 4, day_n 5]
            stats := { init_stats with next_day_timestamps := 6 } } := by
    simp [process_chain, process_snaps, snap_save_step, max_next_day_depth, fetch_linear,
      should_skip_date, init_collector, init_stats, get_next_day_timestamp,
      CalDate.ltB, day_n, save_to_db, save_loop]
  rw [h]
  refine ⟨rfl, by decide, by decide⟩

/-- C7 amended: termination is enforced by the visited set, the
strictly-later-date requirement on followed pointers, and a hard-coded
next-day depth bound of 5: the synthetic cycle A points to B, B points
to A is walked with exactly two fetches and returns; and a call whose
depth exceeds the bound (gas 0) returns with the state unchanged — the
bound is logged, not fatal, and adds no error. -/
theorem cycle_terminates_depth_bound_harmless :
    ((process_chain env0 fetch_cycle (max_next_day_depth + 1) tA
        init_collector).fetched = [tA, tB]) ∧
    (∀ (env : SaveEnv) (fetch : UtcTime → ChainFetch) (ts : UtcTime)
        (c : Collector),
        ts ∉ c.visited_timestamps →
        should_skip_date c.visited_timestamps ts = false →
        process_chain env fetch 0 ts c = c) := by
  constructor
  · simp [process_chain, process_snaps, snap_save_step, max_next_day_depth, fetch_cycle,
      should_skip_date, init_collector, init_stats, get_next_day_timestamp,
      CalDate.ltB, tA, tB, d1, d2, save_to_db, save_loop]
  · intro env fetch ts c hmem hskip
    simp [process_chain, hmem, hskip]

/-- C7 witness: the depth-bound branch concretely returns the fresh
state unchanged. -/
theorem cycle_terminates_witness :
    process_chain env0 fetch_cycle 0 tC init_collector = init_collector :=
  cycle_terminates_depth_bound_harmless.2 env0 fetch_cycle tC init_collector
    (by decide) (by decide)

/-- `_save_to_db` never touches the run-level date counters. -/
theorem save_to_db_walk_ctr (env : SaveEnv) (snap : Snapshot)
    (c : Collector) : walk_ctr (save_to_db env snap c).1 = walk_ctr c := by
  have h := save_to_db_frame env snap c
  simp [walk_ctr, h.2.2.2.1, h.2.2.2.2.1]

/-- The per-snapshot save step never touches the run-level date
counters. -/
theorem snap_save_step_walk_ctr (env : SaveEnv) (s : Snapshot)
    (c : Collector) : walk_ctr (snap_save_step env s c) = walk_ctr c := by
  unfold snap_save_step
  split
  · rfl
  · rcases hsv : save_to_db env s
        { c with
            stats :=
              { c.stats with
                  total_snapshots := c.stats.total_snapshots + 1
                  total_games := c.stats.total_games + s.data.length }
            emitted := c.emitted ++ [s] } with ⟨cs, b⟩
    have hctr := save_to_db_walk_ctr env s
      { c with
          stats :=
            { c.stats with
                total_snapshots := c.stats.total_snapshots + 1
                total_games := c.stats.total_games + s.data.length }
          emitted := c.emitted ++ [s] }
    rw [hsv] at hctr
    cases b <;> simp_all [walk_ctr]

/-- Walking a day (at any remaining depth budget) never touches the
run-level date counters: they are only written by the dispatch loop of
`collect_historical_odds`. -/
theorem process_chain_walk_ctr (env : SaveEnv)
    (fetch : UtcTime → ChainFetch) : ∀ gas : Nat,
    (∀ (ts : UtcTime) (c : Collector),
        walk_ctr (process_chain env fetch gas ts c) = walk_ctr c) ∧
    (∀ (snaps : List Snapshot) (c : Collector),
        walk_ctr (process_snaps env fetch gas snaps c) = walk_ctr c) := by
  intro gas
  induction gas with
  | zero =>
    have hchain : ∀ (ts : UtcTime) (c : Collector),
        walk_ctr (process_chain env fetch 0 ts c) = walk_ctr c := by
      intro ts c
      simp only [process_chain]
      split
      · rfl
      · split
        · simp [walk_ctr]
        · rfl
    refine ⟨hchain, ?_⟩
    intro snaps
    induction snaps with
    | nil => intro c; simp [process_snaps]
    | cons s rest ihs =>
      intro c
      simp only [process_snaps]
      cases hnd : get_next_day_timestamp s with
      | some nts =>
        simp only [hnd]
        rw [ihs, hchain]
        exact snap_save_step_walk_ctr env s c
      | none =>
        simp only [hnd]
        rw [ihs]
        exact snap_save_step_walk_ctr env s c
  | succ g ih =>
    have hchain : ∀ (ts : UtcTime) (c : Collector),
        walk_ctr (process_chain env fetch (g + 1) ts c) = walk_ctr c := by
      intro ts c
      simp only [process_chain]
      split
      · rfl
      · split
        · simp [walk_ctr]
        · cases hf : fetch ts with
          | fail_other => simp [hf, walk_ctr]
          | ok snaps =>
            simp only [hf]
            rw [ih.2]
            rfl
    refine ⟨hchain, ?_⟩
    intro snaps
    induction snaps with
    | nil => intro c; simp [process_snaps]
    | cons s rest ihs =>
      intro c
      simp only [process_snaps]
      cases hnd : get_next_day_timestamp s with
      | some nts =>
        simp only [hnd]
        rw [ihs, hchain]
        exact snap_save_step_walk_ctr env s c
      | none =>
        simp only [hnd]
        rw [ihs]
        exact snap_save_step_walk_ctr env s c

/-- C9 counterexample: the script runner does abort a run: five
accumulated errors (here five consecutive failing iterations) break the
loop with `aborted` rather than processing the rest of the requested
range — the run stops at `current = 0` although the range end is
10000. -/
theorem script_run_aborts_after_five_errors :
    (script_loop 10000 (List.replicate 5 .exc)
        ⟨0, 0, 0, 0, false, false⟩).aborted = true ∧
    (script_loop 10000 (List.replicate 5 .exc)
        ⟨0, 0, 0, 0, false, false⟩).completed = false ∧
    (script_loop 10000 (List.replicate 5 .exc)
        ⟨0, 0, 0, 0, false, false⟩).current = 0 ∧
    (script_loop 10000 (List.replicate 5 .exc)
        ⟨0, 0, 0, 0, false, false⟩).error_count = 5 := by
  refine ⟨by decide, by decide, by decide, by decide⟩

/-- C9 amended: resilience holds per failure but not per run.  A single
body failure inside the script loop is counted and the loop goes on
with the same timestamp, and the chain-walking collector's run loop
processes every seed date of the range whatever the walks do, reporting
the accumulated counters; but once the script's cumulative error count
reaches 5 the whole run stops (`break`), leaving the rest of the range
unprocessed. -/
theorem run_resilience_amended :
    (∀ (end_date : Nat) (rest : List ScriptFetch) (st : ScriptState),
        st.current ≤ end_date →
        st.error_count + 1 < 5 →
        script_loop end_date (.exc :: rest) st =
          script_loop end_date rest
            { st with error_count := st.error_count + 1 }) ∧
    (∀ (end_date : Nat) (rest : List ScriptFetch) (st : ScriptState),
        st.current ≤ end_date →
        4 ≤ st.error_count →
        script_loop end_date (.exc :: rest) st =
          { st with error_count := st.error_count + 1, aborted := true }) ∧
    (∀ (env : SaveEnv) (fetch : UtcTime → ChainFetch)
        (dates : List UtcTime) (c : Collector),
        (collect_run env fetch dates c).stats.processed_dates =
          c.stats.processed_dates + dates.length ∧
        (collect_run env fetch dates c).stats.total_dates =
          dates.length) := by
  refine ⟨?_, ?_, ?_⟩
  · intro end_date rest st hcur herr
    simp only [script_loop]
    rw [if_neg (Nat.not_lt.mpr hcur)]
    rw [if_neg (by omega)]
  · intro end_date rest st hcur herr
    simp only [script_loop]
    rw [if_neg (Nat.not_lt.mpr hcur)]
    rw [if_pos (by omega)]
  · intro env fetch dates c
    have hc := (process_chain_walk_ctr env fetch (max_next_day_depth + 1)).1
    have hstep1 : ∀ (c0 : Collector) (d : UtcTime),
        (dispatch_step env fetch c0 d).stats.processed_dates =
          c0.stats.processed_dates + 1 := by
      intro c0 d
      show (process_chain env fetch (max_next_day_depth + 1) d
          c0).stats.processed_dates + 1 = c0.stats.processed_dates + 1
      have h1 := congrArg Prod.fst (hc d c0)
      simp only [walk_ctr] at h1
      omega
    have hstep2 : ∀ (c0 : Collector) (d : UtcTime),
        (dispatch_step env fetch c0 d).stats.total_dates =
          c0.stats.total_dates := by
      intro c0 d
      show (process_chain env fetch (max_next_day_depth + 1) d
          c0).stats.total_dates = c0.stats.total_dates
      have h2 := congrArg Prod.snd (hc d c0)
      simp only [walk_ctr] at h2
      omega
    have aux : ∀ (ds : List UtcTime) (c0 : Collector),
        ((ds.foldl (dispatch_step env fetch) c0).stats.processed_dates =
          c0.stats.processed_dates + ds.length) ∧
        ((ds.foldl (dispatch_step env fetch) c0).stats.total_dates =
          c0.stats.total_dates) := by
      intro ds
      induction ds with
      | nil => intro c0; simp
      | cons d ds ih =>
        intro c0
        simp only [List.foldl_cons, List.length_cons]
        obtain ⟨ha, hb⟩ := ih (dispatch_step env fetch c0 d)
        rw [ha, hb, hstep1, hstep2]
        omega
    simp only [collect_run]
    obtain ⟨ha, hb⟩ := aux dates
      { c with stats := { c.stats with total_dates := dates.length } }
    rw [ha, hb]
    exact ⟨rfl, rfl⟩

/-- C9 witness: one failing iteration with a clean rest completes the
range and reports the single error; a two-date collector run processes
both dates. -/
theorem run_resilience_witness :
    (script_loop 10000 (.exc :: [.ok none]) ⟨0, 0, 0, 0, false, false⟩ =
      script_loop 10000 [.ok none] ⟨0, 0, 1, 0, false, false⟩) ∧
    ((collect_run env0 fetch_failing [tA, tB]
        init_collector).stats.processed_dates =
      init_collector.stats.processed_dates + 2) :=
  ⟨run_resilience_amended.1 10000 [.ok none] ⟨0, 0, 0, 0, false, false⟩
      (by decide) (by decide),
    (run_resilience_amended.2.2 env0 fetch_failing [tA, tB]
        init_collector).1⟩

/-- The per-snapshot save step leaves the visited set, the fetch log
and the retry counter alone, and appends the snapshot to the emission
log exactly when it carries data. -/
theorem snap_save_step_obs (env : SaveEnv) (s : Snapshot) (c : Collector) :
    (snap_save_step env s c).visited_timestamps = c.visited_timestamps ∧
    (snap_save_step env s c).fetched = c.fetched ∧
    (snap_save_step env s c).stats.rate_limit_retries =
      c.stats.rate_limit_retries ∧
    (snap_save_step env s c).emitted =
      c.emitted ++ (if s.data = [] then [] else [s]) := by
  unfold snap_save_step
  split
  · simp
  · rcases hsv : save_to_db env s
        { c with
            stats :=
              { c.stats with
                  total_snapshots := c.stats.total_snapshots + 1
                  total_games := c.stats.total_games + s.data.length }
            emitted := c.emitted ++ [s] } with ⟨cs, b⟩
    have hframe := save_to_db_frame env s
      { c with
          stats :=
            { c.stats with
                total_snapshots := c.stats.total_snapshots + 1
                total_games := c.stats.total_games + s.data.length }
          emitted := c.emitted ++ [s] }
    rw [hsv] at hframe
    cases b <;> simp_all

/-- The non-recursive snapshot loop leaves the visited set, the fetch
log and the retry counter alone, and appends exactly the data-carrying
snapshots, each once, to the emission log. -/
theorem save_snaps_here_spec (env : SaveEnv) :
    ∀ (snaps : List Snapshot) (c : Collector),
    (save_snaps_here env snaps c).visited_timestamps =
      c.visited_timestamps ∧
    (save_snaps_here env snaps c).fetched = c.fetched ∧
    (save_snaps_here env snaps c).stats.rate_limit_retries =
      c.stats.rate_limit_retries ∧
    (save_snaps_here env snaps c).emitted =
      c.emitted ++ snaps.filter (fun s => !decide (s.data = [])) := by
  intro snaps
  induction snaps with
  | nil => intro c; simp [save_snaps_here]
  | cons s rest ih =>
    intro c
    simp only [save_snaps_here, List.foldl_cons] at ih ⊢
    have hobs := snap_save_step_obs env s c
    cases hnd : get_next_day_timestamp s with
    | some nts =>
      simp only [hnd]
      obtain ⟨h1, h2, h3, h4⟩ := ih
        { snap_save_step env s c with
            stats :=
              { (snap_save_step env s c).stats with
                  next_day_timestamps :=
                    (snap_save_step env s c).stats.next_day_timestamps + 1 } }
      refine ⟨h1.trans hobs.1, h2.trans hobs.2.1, ?_, ?_⟩
      · rw [h3]
        exact hobs.2.2.1
      · rw [h4]
        show (snap_save_step env s c).emitted ++ _ = _
        rw [hobs.2.2.2]
        by_cases hd : s.data = [] <;> simp [hd]
    | none =>
      simp only [hnd]
      obtain ⟨h1, h2, h3, h4⟩ := ih (snap_save_step env s c)
      refine ⟨h1.trans hobs.1, h2.trans hobs.2.1, ?_, ?_⟩
      · rw [h3]
        exact hobs.2.2.1
      · rw [h4, hobs.2.2.2]
        by_cases hd : s.data = [] <;> simp [hd]

/-- C4.  Rate-limit retry is lossless and exactly-once, confirmed on
`_process_date`: when the first `n` responses for timestamp `ts` are
errors carrying the frequency-limit marker and the next response
succeeds, the walker retries the same timestamp every time (each retry
removes it from the visited set so it is not skipped), for arbitrarily
many consecutive rate-limit hits; the run ends with `ts` in the visited
set exactly once, `n` counted retries, `n + 1` fetch attempts for `ts`,
and each data-carrying snapshot of the successful response emitted and
saved exactly once, never twice.  (Snapshots are assumed to carry no
cross-day pointer, so the next-day recursion elided by the retry model
never fires.) -/
theorem rate_limit_retry_exactly_once :
    ∀ (env : SaveEnv) (n : Nat) (snaps : List Snapshot) (ts : UtcTime)
      (depth : Nat) (c : Collector),
      ts ∉ c.visited_timestamps →
      should_skip_date c.visited_timestamps ts = false →
      depth ≤ max_next_day_depth →
      (∀ s ∈ snaps, get_next_day_timestamp s = none) →
      (process_date_attempts env
          (List.replicate n (.fail rl_error) ++ [.ok snaps]) ts depth
          c).visited_timestamps = ts :: c.visited_timestamps ∧
      (process_date_attempts env
          (List.replicate n (.fail rl_error) ++ [.ok snaps]) ts depth
          c).fetched = c.fetched ++ List.replicate (n + 1) ts ∧
      (process_date_attempts env
          (List.replicate n (.fail rl_error) ++ [.ok snaps]) ts depth
          c).stats.rate_limit_retries = c.stats.rate_limit_retries + n ∧
      (process_date_attempts env
          (List.replicate n (.fail rl_error) ++ [.ok snaps]) ts depth
          c).emitted =
        c.emitted ++ snaps.filter (fun s => !decide (s.data = [])) := by
  intro env n
  induction n with
  | zero =>
    intro snaps ts depth c hmem hskip hdepth hnd
    simp only [List.replicate, List.nil_append]
    simp only [process_date_attempts]
    rw [if_neg hmem, if_neg (by simp [hskip]), if_neg (Nat.not_lt.mpr hdepth)]
    obtain ⟨h1, h2, h3, h4⟩ := save_snaps_here_spec env snaps
      { c with
          visited_timestamps := ts :: c.visited_timestamps
          fetched := c.fetched ++ [ts] }
    exact ⟨h1, h2, h3, h4⟩
  | succ m ih =>
    intro snaps ts depth c hmem hskip hdepth hnd
    have hmarker : error_has_marker rl_error = true := by decide
    simp only [List.replicate_succ, List.cons_append]
    unfold process_date_attempts
    rw [if_neg hmem, if_neg (by simp [hskip]), if_neg (Nat.not_lt.mpr hdepth)]
    simp only [handle_rate_limit, hmarker, ite_true]
    rw [List.erase_cons_head]
    obtain ⟨h1, h2, h3, h4⟩ := ih snaps ts depth
      { c with
          visited_timestamps := c.visited_timestamps
          fetched := c.fetched ++ [ts]
          stats :=
            { c.stats with
                rate_limit_retries := c.stats.rate_limit_retries + 1 } }
      hmem hskip hdepth hnd
    refine ⟨h1, ?_, ?_, h4⟩
    · rw [h2]
      simp [List.replicate_succ]
    · rw [h3]
      show c.stats.rate_limit_retries + 1 + m =
        c.stats.rate_limit_retries + (m + 1)
      omega

/-- C4 witness: two rate-limited responses followed by a success at the
seed leave one visited entry, three fetch attempts, two counted
retries, and exactly one emission of the data-carrying snapshot. -/
theorem rate_limit_retry_exactly_once_witness :
    (process_date_attempts env0
        (List.replicate 2 (.fail rl_error) ++
          [.ok [⟨tA, none, none, [game_s1]⟩]]) tA 0
        init_collector).visited_timestamps =
      tA :: init_collector.visited_timestamps ∧
    (process_date_attempts env0
        (List.replicate 2 (.fail rl_error) ++
          [.ok [⟨tA, none, none, [game_s1]⟩]]) tA 0
        init_collector).fetched =
      init_collector.fetched ++ List.replicate (2 + 1) tA ∧
    (process_date_attempts env0
        (List.replicate 2 (.fail rl_error) ++
          [.ok [⟨tA, none, none, [game_s1]⟩]]) tA 0
        init_collector).stats.rate_limit_retries =
      init_collector.stats.rate_limit_retries + 2 ∧
    (process_date_attempts env0
        (List.replicate 2 (.fail rl_error) ++
          [.ok [⟨tA, none, none, [game_s1]⟩]]) tA 0
        init_collector).emitted =
      init_collector.emitted ++
        List.filter (fun s => !decide (s.data = []))
          [⟨tA, none, none, [game_s1]⟩] :=
  rate_limit_retry_exactly_once env0 2 [⟨tA, none, none, [game_s1]⟩] tA 0
    init_collector (by decide) (by decide) (by decide) (by decide)

/-- One market step only appends pending odds: committed rows, pending
games and the commit counter are untouched, whether the step returns or
raises (the raise carries the session unchanged by the raising
market). -/
theorem market_step_state (g : GameData) (bid : Nat) (ts : UtcTime)
    (s : SessionState) (m : MarketData) :
    (except_state (market_step g bid ts s m)).games = s.games ∧
    (except_state (market_step g bid ts s m)).odds = s.odds ∧
    (except_state (market_step g bid ts s m)).pending_games =
      s.pending_games ∧
    (except_state (market_step g bid ts s m)).commit_count =
      s.commit_count := by
  unfold market_step
  cases hk : market_kind_of m.key with
  | none => simp [except_state]
  | some kind =>
    by_cases ho : odds_exist s g.id bid kind ts = true
    · simp [ho, except_state]
    · simp only [ho, if_false, Bool.false_eq_true]
      cases hmr : market_row g bid kind ts m.outcomes with
      | error u => simp [except_state]
      | ok r =>
        cases r with
        | none => simp [except_state]
        | some row => simp [except_state]

/-- One bookmaker's row building only appends pending odds, whether it
returns or raises. -/
theorem add_bookmaker_rows_state (g : GameData) (bid : Nat)
    (ts : UtcTime) : ∀ (markets : List MarketData) (s : SessionState),
    (except_state (add_bookmaker_rows g bid ts markets s)).games =
      s.games ∧
    (except_state (add_bookmaker_rows g bid ts markets s)).odds =
      s.odds ∧
    (except_state (add_bookmaker_rows g bid ts markets s)).pending_games =
      s.pending_games ∧
    (except_state (add_bookmaker_rows g bid ts markets s)).commit_count =
      s.commit_count := by
  intro markets
  induction markets with
  | nil => intro s; simp [add_bookmaker_rows, except_state]
  | cons m rest ih =>
    intro s
    simp only [add_bookmaker_rows]
    cases hms : market_step g bid ts s m with
    | error e =>
      have hm := market_step_state g bid ts s m
      rw [hms] at hm
      simpa [except_state] using hm
    | ok s1 =>
      have hm := market_step_state g bid ts s m
      rw [hms] at hm
      simp only [except_state] at hm
      obtain ⟨h1, h2, h3, h4⟩ := ih s1
      exact ⟨h1.trans hm.1, h2.trans hm.2.1, h3.trans hm.2.2.1,
        h4.trans hm.2.2.2⟩

/-- One bookmaker entry only appends pending odds, whether it returns
or raises. -/
theorem bookmaker_step_state (env : SaveEnv) (g : GameData)
    (ts : UtcTime) (s : SessionState) (bm : BookmakerData) :
    (except_state (bookmaker_step env g ts s bm)).games = s.games ∧
    (except_state (bookmaker_step env g ts s bm)).odds = s.odds ∧
    (except_state (bookmaker_step env g ts s bm)).pending_games =
      s.pending_games ∧
    (except_state (bookmaker_step env g ts s bm)).commit_count =
      s.commit_count := by
  unfold bookmaker_step
  cases env.bookmaker_table bm.key with
  | none => simp [except_state]
  | some bid => exact add_bookmaker_rows_state g bid ts bm.markets s

/-- Building a game's rows only appends pending odds, whether the build
returns or raises. -/
theorem add_game_rows_state (env : SaveEnv) (g : GameData)
    (ts : UtcTime) : ∀ (bs : List BookmakerData) (s : SessionState),
    (except_state (add_game_rows env g ts bs s)).games = s.games ∧
    (except_state (add_game_rows env g ts bs s)).odds = s.odds ∧
    (except_state (add_game_rows env g ts bs s)).pending_games =
      s.pending_games ∧
    (except_state (add_game_rows env g ts bs s)).commit_count =
      s.commit_count := by
  intro bs
  induction bs with
  | nil => intro s; simp [add_game_rows, except_state]
  | cons bm rest ih =>
    intro s
    simp only [add_game_rows]
    cases hbs : bookmaker_step env g ts s bm with
    | error e =>
      have hb := bookmaker_step_state env g ts s bm
      rw [hbs] at hb
      simpa [except_state] using hb
    | ok s1 =>
      have hb := bookmaker_step_state env g ts s bm
      rw [hbs] at hb
      simp only [except_state] at hb
      obtain ⟨h1, h2, h3, h4⟩ := ih s1
      exact ⟨h1.trans hb.1, h2.trans hb.2.1, h3.trans hb.2.2.1,
        h4.trans hb.2.2.2⟩

/-- The game-row insert touches only the pending games. -/
theorem game_pending_session_committed (g : GameData) (hid aid : Nat)
    (s : SessionState) :
    (game_pending_session g hid aid s).games = s.games ∧
    (game_pending_session g hid aid s).odds = s.odds := by
  unfold game_pending_session
  split <;> simp

/-- One `_save_to_db` game iteration over a clean session (no pending
rows): when it completes without raising, the session is clean again;
when it raised — a rolled-back `SQLAlchemyError` or an escaping
`KeyError` — the committed store is exactly what it was before the game
(the commit never ran), though the escaping `KeyError` leaves the
half-built game's rows pending. -/
theorem save_game_session_shape (env : SaveEnv) (ts : UtcTime)
    (g : GameData) (c : Collector)
    (hpg : c.session.pending_games = [])
    (hpo : c.session.pending_odds = []) :
    ((save_game env ts g c).2 = false →
      (save_game env ts g c).1.session.pending_games = [] ∧
      (save_game env ts g c).1.session.pending_odds = []) ∧
    ((save_game env ts g c).2 = true →
      (save_game env ts g c).1.session.games = c.session.games ∧
      (save_game env ts g c).1.session.odds = c.session.odds) := by
  unfold save_game
  split
  · exact ⟨fun _ => ⟨hpg, hpo⟩, fun h => by simp at h⟩
  · split
    · rename_i home_id away_id hteam1 hteam2
      dsimp only
      have hgp := game_pending_session_committed g home_id away_id c.session
      split
      · rename_i e heq
        have hag := add_game_rows_state env g ts g.bookmakers
          (game_pending_session g home_id away_id c.session)
        rw [heq] at hag
        simp only [except_state] at hag
        refine ⟨fun h => by simp at h, fun _ => ?_⟩
        exact ⟨hag.1.trans hgp.1, hag.2.1.trans hgp.2⟩
      · rename_i s1 heq
        have hag := add_game_rows_state env g ts g.bookmakers
          (game_pending_session g home_id away_id c.session)
        rw [heq] at hag
        simp only [except_state] at hag
        split
        · refine ⟨fun h => by simp at h, fun _ => ?_⟩
          exact ⟨hag.1.trans hgp.1, hag.2.1.trans hgp.2⟩
        · exact ⟨fun _ => ⟨rfl, rfl⟩, fun h => by simp at h⟩
    · exact ⟨fun _ => ⟨hpg, hpo⟩, fun h => by simp at h⟩

/-- C2 counterexample: in `HistoricalDataService` the snapshot envelope
is committed by `create_odds_snapshot` on its own connection before
`store_odds` commits the quotes on another; when `store_odds` fails,
the run continues and the store observably holds the envelope with zero
quote rows — the very partial state the claim rules out — although the
same write without the failure would have produced quote rows. -/
theorem envelope_without_quotes_observable :
    (service_write_game true game_s1 tA none none ⟨0, [], []⟩).snapshots ≠
      [] ∧
    (service_write_game true game_s1 tA none none ⟨0, [], []⟩).game_odds =
      [] ∧
    (service_write_game false game_s1 tA none none ⟨0, [], []⟩).game_odds ≠
      [] := by
  refine ⟨by decide, by decide, by decide⟩

/-- C2 amended: within one `_save_to_db` call started on a clean
session, per-game writes are atomic — the committed store always
equals that of a run over a prefix of the snapshot's games in which
every commit succeeded (a raising game commits nothing by itself).
But the claim's no-partial-state guarantee fails on both cited
writers: (a) a `KeyError` from a missing outcome point escapes
`_save_to_db` without rollback (only `SQLAlchemyError` rolls back),
leaving the half-built game's rows pending in the shared session, and
the next snapshot's save commits them — concretely, game `gb` ends up
committed with its moneyline row but without the spread row that its
payload carried and that the well-formed variant of the same payload
does commit; (b) in `HistoricalDataService` the envelope insert
commits before the quote inserts, so a failing `store_odds` leaves the
committed envelope row with none of its quote rows. -/
theorem per_game_write_atomicity :
    (∀ (env : SaveEnv) (ts : UtcTime) (games : List GameData)
        (c : Collector),
        c.session.pending_games = [] →
        c.session.pending_odds = [] →
        ∃ k ≤ games.length,
          (save_loop env ts games c).1.session.games =
            (save_loop env ts (games.take k) c).1.session.games ∧
          (save_loop env ts games c).1.session.odds =
            (save_loop env ts (games.take k) c).1.session.odds ∧
          (save_loop env ts (games.take k) c).2 = false) ∧
    (∀ (g : GameData) (ts : UtcTime) (prev nxt : Option UtcTime)
        (db : SvcDb),
        (service_write_game true g ts prev nxt db).snapshots =
          db.snapshots ++ [⟨db.next_id, g.id, ts, prev, nxt⟩] ∧
        (service_write_game true g ts prev nxt db).game_odds =
          db.game_odds) ∧
    ((save_to_db env1 snap_bad init_collector).2 = true ∧
      (save_to_db env1 snap_bad init_collector).1.session.games = [] ∧
      (save_to_db env1 snap_bad
          init_collector).1.session.pending_odds.map
          (fun r => (r.game_ref, r.market_type)) =
        [("gb", MarketKind.h2h)] ∧
      ((save_to_db env1 snap_g2
            (save_to_db env1 snap_bad
              init_collector).1).1.session.games.map
          (fun r => r.game_id)) = ["gb", "g2"] ∧
      ((save_to_db env1 snap_g2
            (save_to_db env1 snap_bad
              init_collector).1).1.session.odds.map
          (fun r => (r.game_ref, r.market_type))) =
        [("gb", MarketKind.h2h), ("g2", MarketKind.h2h)] ∧
      ((save_to_db env1 snap_gb_ok
            init_collector).1.session.odds.map
          (fun r => (r.game_ref, r.market_type))) =
        [("gb", MarketKind.h2h), ("gb", MarketKind.spread)]) := by
  refine ⟨?_, ?_, ?_, ?_, ?_, ?_, ?_, ?_⟩
  · intro env ts games
    induction games with
    | nil =>
      intro c _ _
      exact ⟨0, Nat.le_refl 0, rfl, rfl, rfl⟩
    | cons g rest ih =>
      intro c hpg hpo
      have hshape := save_game_session_shape env ts g c hpg hpo
      rcases hsg : save_game env ts g c with ⟨c1, b⟩
      rw [hsg] at hshape
      cases b with
      | true =>
        refine ⟨0, Nat.zero_le _, ?_, ?_, rfl⟩
        · simp only [save_loop, hsg, List.take_zero]
          exact (hshape.2 rfl).1
        · simp only [save_loop, hsg, List.take_zero]
          exact (hshape.2 rfl).2
      | false =>
        obtain ⟨hq1, hq2⟩ := hshape.1 rfl
        obtain ⟨k, hk, h1, h2, h3⟩ := ih c1 hq1 hq2
        refine ⟨k + 1, by simpa using hk, ?_, ?_, ?_⟩
        · simpa only [save_loop, hsg, List.take_succ_cons] using h1
        · simpa only [save_loop, hsg, List.take_succ_cons] using h2
        · simpa only [save_loop, hsg, List.take_succ_cons] using h3
  · intro g ts prev nxt db
    exact ⟨rfl, rfl⟩
  · decide
  · decide
  · decide
  · decide
  · decide
  · decide

/-- C2 witness: over a clean collector and a healthy store, the
two-game snapshot commits as the full two-game prefix. -/
theorem per_game_write_atomicity_witness :
    ∃ k ≤ ([game_s1, game_s2].length),
      (save_loop env1 tA [game_s1, game_s2]
            init_collector).1.session.games =
        (save_loop env1 tA ([game_s1, game_s2].take k)
            init_collector).1.session.games ∧
      (save_loop env1 tA [game_s1, game_s2]
            init_collector).1.session.odds =
        (save_loop env1 tA ([game_s1, game_s2].take k)
            init_collector).1.session.odds ∧
      (save_loop env1 tA ([game_s1, game_s2].take k)
          init_collector).2 = false :=
  per_game_write_atomicity.1 env1 tA [game_s1, game_s2] init_collector rfl
    rfl

/-- C8 counterexample: a second sighting of provider game `g1` carrying
moved prices at a later snapshot timestamp writes nothing: the
committed odds rows after saving both snapshots equal those after the
first alone (the first sighting did write rows), and the sighting is
only counted as a duplicate — its quote data is discarded, not written
as updated odds. -/
theorem duplicate_sighting_quotes_discarded :
    (save_to_db env1 snap_s2
        (save_to_db env1 snap_s1 init_collector).1).1.session.odds =
      (save_to_db env1 snap_s1 init_collector).1.session.odds ∧
    (save_to_db env1 snap_s1 init_collector).1.session.odds ≠ [] ∧
    (save_to_db env1 snap_s2
        (save_to_db env1 snap_s1
          init_collector).1).1.stats.duplicate_games = 1 := by
  refine ⟨by decide, by decide, by decide⟩

/-- C8 amended: once a provider game-id has been seen in the run, a
later sighting of the same id is counted as a duplicate and skipped
*entirely* by `_save_to_db` — its bookmaker quotes are neither parsed
nor written; the whole per-game body reduces to the duplicate counter
increment. -/
theorem duplicate_sighting_skipped_entirely (env : SaveEnv)
    (ts : UtcTime) (g : GameData) (c : Collector)
    (h : g.id ∈ c.visited_game_ids) :
    save_game env ts g c =
      ({ c with
          stats :=
            { c.stats with
                duplicate_games := c.stats.duplicate_games + 1 } },
        false) := by
  unfold save_game
  rw [if_pos h]

/-- C8 witness: the concrete second sighting over a collector that has
already written `g1` reduces to the duplicate counter increment. -/
theorem duplicate_sighting_skipped_witness :
    save_game env1 tC game_s2
        { init_collector with visited_game_ids := ["g1"] } =
      ({ { init_collector with visited_game_ids := ["g1"] } with
          stats :=
            { { init_collector with
                  visited_game_ids := ["g1"] }.stats with
                duplicate_games :=
                  { init_collector with
                      visited_game_ids := ["g1"] }.stats.duplicate_games +
                    1 } },
        false) :=
  duplicate_sighting_skipped_entirely env1 tC game_s2
    { init_collector with visited_game_ids := ["g1"] } (by decide)
